import Mathlib

set_option maxRecDepth 8192

/-!
Verification development for the POS backend (`src/main.py`, `src/database.py`,
`src/backend/models.py`).

The pricing code evaluates `math.floor(item.prd_price / 1.1)` in Python, i.e. the price is
converted to an IEEE-754 binary64 value, divided by the binary64 literal `1.1` (whose exact
value is `2476979795053773 / 2 ^ 51`), and the exact mathematical floor of the resulting
double is taken.  The model below reproduces this bit-exactly using integer arithmetic:
round-half-even rounding of an exact rational to 53 significant bits is expressed with
natural-number division.  The model is faithful for `|price| ≤ 2 ^ 1023`; above
`2 ^ 1024` CPython raises `OverflowError` instead of producing a value.
-/

/-- Fuel-driven floor of the base-2 logarithm; `log2Aux fuel n = ⌊log₂ n⌋` whenever
`1 ≤ n ≤ fuel`. -/
def log2Aux : Nat → Nat → Nat
  | 0, _ => 0
  | fuel + 1, n => if n ≤ 1 then 0 else log2Aux fuel (n / 2) + 1

/-- `⌊log₂ n⌋` for `n ≥ 1` (and `0` at `0`), kernel-computable. -/
def natLog2 (n : Nat) : Nat := log2Aux n n

/-- Round-half-to-even of the nonnegative rational `a / b` (`b > 0`): the rounding used by
IEEE-754 binary64 arithmetic when an exact value is rounded to a representable one. -/
def rheNat (a b : Nat) : Nat :=
  if 2 * (a % b) < b then a / b
  else if b < 2 * (a % b) then a / b + 1
  else if (a / b) % 2 = 0 then a / b else a / b + 1

/-- `⌊log₂ (a / b)⌋ : ℤ` for positive naturals `a`, `b`. -/
def ratLog2 (a b : Nat) : Int :=
  let T := natLog2 b + 1
  (natLog2 (a * 2 ^ T / b) : Int) - T

/-- Numerator of the exact value of the binary64 literal `1.1`: the double nearest to
`1.1` is `c11 / 2 ^ 51`. -/
def c11 : Nat := 2476979795053773

/-- CPython `float(p)` for a nonnegative integer `p`: round-half-even to 53 significant
bits.  Rounding an integer to 53 bits yields an integer, so the model returns `Nat`. -/
def pyFloatNat (p : Nat) : Nat :=
  let e := natLog2 p
  if e ≤ 52 then p
  else rheNat p (2 ^ (e - 52)) * 2 ^ (e - 52)

/-- Scale of the binary64 quotient `float(p) / 1.1` for `p ≥ 1`: the quotient has the
form `m * 2 ^ (-divCoreS p)` with mantissa `m ∈ [2 ^ 52, 2 ^ 53]`. -/
def divCoreS (p : Nat) : Int :=
  52 - ratLog2 (pyFloatNat p * 2 ^ 51) c11

/-- Mantissa of the binary64 quotient `float(p) / 1.1` for `p ≥ 1`: the exact rational
quotient `(float(p) * 2 ^ 51) / c11` is scaled into `[2 ^ 52, 2 ^ 53)` and rounded
half-even to an integer, which is exactly IEEE-754 correctly rounded division. -/
def divCoreM (p : Nat) : Nat :=
  rheNat (pyFloatNat p * 2 ^ 51 * 2 ^ (divCoreS p).toNat)
    (c11 * 2 ^ (-divCoreS p).toNat)

/-- `math.floor(float(p) / 1.1)` for a nonnegative integer `p`, exactly as Python
evaluates it: the floor of `divCoreM p * 2 ^ (-divCoreS p)`. -/
def exTaxUnitNat (p : Nat) : Nat :=
  if p = 0 then 0
  else divCoreM p * 2 ^ (-divCoreS p).toNat / 2 ^ (divCoreS p).toNat

/-- `math.ceil(float(p) / 1.1)` for a nonnegative integer `p`; used for negative prices
via `floor (-x) = -(ceil x)`. -/
def ceilTaxUnitNat (p : Nat) : Nat :=
  if p = 0 then 0
  else (divCoreM p * 2 ^ (-divCoreS p).toNat + 2 ^ (divCoreS p).toNat - 1) /
    2 ^ (divCoreS p).toNat

/-- `math.floor(prd_price / 1.1)` exactly as evaluated by `src/main.py` line 167
(binary64 division by the double nearest `1.1`, then exact floor), for any integer
price accepted by the `PurchaseItem` model. -/
def exTaxUnit (p : Int) : Int :=
  if 0 ≤ p then (exTaxUnitNat p.toNat : Int) else -(ceilTaxUnitNat (-p).toNat : Int)

example : exTaxUnit 110 = 99 := by decide
example : exTaxUnit 100 = 90 := by decide
example : exTaxUnit 0 = 0 := by decide
example : exTaxUnit 33 = 29 := by decide
example : exTaxUnit 44 = 40 := by decide
example : exTaxUnit (-110) = -100 := by decide

/-- The exact-rational tax-excluded unit price described by the specification text:
`⌊p / 1.1⌋` computed on rationals, i.e. `⌊10 p / 11⌋`. -/
def specExTaxUnit (p : Int) : Int := Int.fdiv (10 * p) 11

/-- `PurchaseItem` (src/main.py lines 26-31): pydantic validates the fields as plain
`int`/`str`, imposing no sign or range constraint. -/
structure PurchaseItem where
  prd_id : Int
  prd_code : String
  prd_name : String
  prd_price : Int
  quantity : Int
  deriving Repr, DecidableEq

/-- `PurchaseRequest` (src/main.py lines 34-38).  `emp_cd : Option String` models the
pydantic `Optional[str] = ""` field: `none` is an explicit JSON `null`, an absent field
becomes `some ""` through the default. -/
structure PurchaseRequest where
  emp_cd : Option String
  store_cd : String
  pos_no : String
  items : List PurchaseItem
  deriving Repr, DecidableEq

/-- `PurchaseResponse` (src/main.py lines 41-44). -/
structure PurchaseResponse where
  success : Bool
  total_amount : Int
  total_amount_ex_tax : Int
  deriving Repr, DecidableEq

/-- `total_amount` (src/main.py line 165): `sum(item.prd_price * item.quantity ...)`. -/
def totalAmount (items : List PurchaseItem) : Int :=
  (items.map fun i => i.prd_price * i.quantity).sum

/-- `total_amount_ex_tax` (src/main.py lines 166-169):
`sum(math.floor(item.prd_price / 1.1) * item.quantity ...)`. -/
def totalAmountExTax (items : List PurchaseItem) : Int :=
  (items.map fun i => exTaxUnit i.prd_price * i.quantity).sum

/-- One row of `t_txn` as written by `purchase` (src/main.py lines 176-185).  The
`DATETIME` column receives `datetime.now()`; no claim concerns it, so the model leaves
the wall-clock value out of the row. -/
structure TxnRow where
  trd_id : Nat
  emp_cd : String
  store_cd : String
  pos_no : String
  total_amt : Int
  ttl_amt_ex_tax : Int
  deriving Repr, DecidableEq

/-- One row of `t_txn_dtl` as written by `purchase` (src/main.py lines 191-205). -/
structure DtlRow where
  trd_id : Nat
  dtl_id : Nat
  prd_id : Int
  prd_code : String
  prd_name : String
  prd_price : Int
  tax_cd : String
  deriving Repr, DecidableEq

/-- Committed state of the backing store: the two tables touched by `purchase`, plus the
auto-increment counter behind `t_txn.TRD_ID` (whose value `cursor.lastrowid` reports
after the header insert). -/
structure DB where
  txns : List TxnRow
  dtls : List DtlRow
  nextTxnId : Nat
  deriving Repr, DecidableEq

/-- Failure model for the storage backend, quantifying over the points where pymysql can
raise: `ok` — every call succeeds; `noConn` — `pymysql.connect` raises, so
`get_db_connection` (src/main.py lines 70-87) raises `HTTPException(503)`; `failOn k` —
the `k`-th statement sent on the cursor raises `pymysql.Error` (0-based over the
`execute` calls of the request, with `conn.commit()` counting as the statement after the
last execute).  In `get_db_cursor` (src/main.py lines 90-106) a `pymysql.Error` triggers
`conn.rollback()` and is re-raised as `HTTPException(500)`; since Starlette's
`HTTPException` derives from `Exception`, both it and the 503 are then re-wrapped by the
endpoint's own `except Exception` into `HTTPException(500)`. -/
inductive DBFault where
  | ok
  | noConn
  | failOn (k : Nat)
  deriving Repr, DecidableEq

/-- Observable outcome of the `/purchase` endpoint. -/
inductive PurchaseResult where
  | response (r : PurchaseResponse)
  | clientError (status : Nat)
  | serverError (status : Nat)
  deriving Repr, DecidableEq

/-- Detail rows produced for one item by the quantity-expansion loop
(src/main.py lines 197-205), starting at detail id `start`: one single-unit row per
iteration of `range(item.quantity)` (none when the quantity is zero or negative, since
`range` is then empty), each with the fixed tax code `"10"`. -/
def itemRows (trdId : Nat) (start : Nat) (i : PurchaseItem) : List DtlRow :=
  (List.range i.quantity.toNat).map fun j =>
    ⟨trdId, start + j, i.prd_id, i.prd_code, i.prd_name, i.prd_price, "10"⟩

/-- The full detail-row list produced by the loop of src/main.py lines 197-205 when the
running counter `dtl_id` starts at `start`. -/
def detailRowsFrom (trdId : Nat) (start : Nat) : List PurchaseItem → List DtlRow
  | [] => []
  | i :: rest => itemRows trdId start i ++ detailRowsFrom trdId (start + i.quantity.toNat) rest

/-- Detail rows of one purchase: the loop starts with `dtl_id = 1` (src/main.py line 197). -/
def detailRows (trdId : Nat) (items : List PurchaseItem) : List DtlRow :=
  detailRowsFrom trdId 1 items

/-- Number of `INSERT INTO t_txn_dtl` statements issued for `items`: one per unit of
quantity. -/
def unitCount (items : List PurchaseItem) : Nat :=
  (items.map fun i => i.quantity.toNat).sum

/-- Effective employee code (src/main.py line 174):
`request.emp_cd if request.emp_cd else "9999999999"`.  Python truthiness makes both
`None` and the empty string fall back to the sentinel. -/
def effectiveEmpCd (e : Option String) : String :=
  match e with
  | none => "9999999999"
  | some s => if s = "" then "9999999999" else s

/-- Effect of a `purchase` body that reaches `conn.commit()` (src/main.py lines 172-213):
one header row carrying the effective employee code, the request's store/POS codes and
the two computed totals; `cursor.lastrowid` yields the auto-increment id; the expanded
detail rows follow; the response echoes the two computed totals. -/
def purchaseCommit (db : DB) (req : PurchaseRequest) : PurchaseResult × DB :=
  let total := totalAmount req.items
  let exTax := totalAmountExTax req.items
  let trdId := db.nextTxnId
  let header : TxnRow :=
    ⟨trdId, effectiveEmpCd req.emp_cd, req.store_cd, req.pos_no, total, exTax⟩
  (PurchaseResult.response ⟨true, total, exTax⟩,
   ⟨db.txns ++ [header], db.dtls ++ detailRows trdId req.items, db.nextTxnId + 1⟩)

/-- Model of the `/purchase` endpoint (src/main.py lines 156-217).  An empty item list is
rejected with HTTP 400 before any database code runs.  Otherwise the request issues
`1 + unitCount req.items` executes (statements `0 .. unitCount`) followed by the commit
(statement `unitCount + 1`); a `pymysql.Error` on any of them rolls the unit back, so
both tables are restored and HTTP 500 is returned (see `DBFault`) — only the
auto-increment counter behind `TRD_ID` may have advanced, since MySQL does not give
allocated ids back on rollback.  A connection failure leaves everything unchanged.  The
model is faithful for requests whose prices satisfy `natAbs ≤ 2 ^ 1023`; for
astronomically larger prices CPython raises `OverflowError` while computing the totals
(before any storage access). -/
def purchase (db : DB) (fault : DBFault) (req : PurchaseRequest) : PurchaseResult × DB :=
  if req.items.isEmpty then
    (PurchaseResult.clientError 400, db)
  else
    match fault with
    | DBFault.noConn => (PurchaseResult.serverError 500, db)
    | DBFault.failOn k =>
        if k ≤ unitCount req.items + 1 then
          (PurchaseResult.serverError 500, ⟨db.txns, db.dtls, db.nextTxnId + 1⟩)
        else purchaseCommit db req
    | DBFault.ok => purchaseCommit db req

/-- `Product` (src/main.py lines 15-19) / one row of `m_product`. -/
structure Product where
  prd_id : Int
  prd_code : String
  prd_name : String
  prd_price : Int
  deriving Repr, DecidableEq

/-- Observable outcome of the `/search_product` endpoint; `success` carries the
`product` field of `ProductSearchResponse` (src/main.py lines 22-23). -/
inductive SearchOutcome where
  | success (product : Option Product)
  | clientError (status : Nat)
  | serverError (status : Nat)
  deriving Repr, DecidableEq

/-- `cursor.fetchone()` on `SELECT ... FROM m_product WHERE CODE = %s`
(src/main.py lines 132-142): the first stored row whose code matches, if any. -/
def lookupProduct (catalog : List Product) (code : String) : Option Product :=
  (catalog.filter fun p => p.prd_code = code).head?

/-- Model of the `/search_product` endpoint (src/main.py lines 120-153).  `none` models a
request body with no usable `"code"` entry; Python truthiness rejects both a missing and
an empty code with HTTP 400 before any storage access.  The request then issues one
execute (statement 0) and the commit (statement 1); failures surface as HTTP 500 after
re-wrapping (see `DBFault`).  A lookup miss is a success whose `product` field is
`none`. -/
def search_product (catalog : List Product) (fault : DBFault) (code : Option String) :
    SearchOutcome :=
  match code with
  | none => SearchOutcome.clientError 400
  | some c =>
    if c = "" then SearchOutcome.clientError 400
    else
      match fault with
      | DBFault.noConn => SearchOutcome.serverError 500
      | DBFault.failOn k =>
          if k ≤ 1 then SearchOutcome.serverError 500
          else SearchOutcome.success (lookupProduct catalog c)
      | DBFault.ok => SearchOutcome.success (lookupProduct catalog c)

/-- Prices for which the binary64 model is exact: CPython raises `OverflowError` on
`p / 1.1` only far beyond this bound. -/
def pricesRepresentable (items : List PurchaseItem) : Prop :=
  ∀ i ∈ items, i.prd_price.natAbs ≤ 2 ^ 1023

instance (items : List PurchaseItem) : Decidable (pricesRepresentable items) :=
  List.decidableBAll _ items

example :
    purchase ⟨[], [], 1⟩ DBFault.ok
      ⟨some "", "30", "90", [⟨7, "4901", "tea", 110, 1⟩]⟩ =
    (PurchaseResult.response ⟨true, 110, 99⟩,
     ⟨[⟨1, "9999999999", "30", "90", 110, 99⟩],
      [⟨1, 1, 7, "4901", "tea", 110, "10"⟩], 2⟩) := by decide

example :
    purchase ⟨[], [], 5⟩ DBFault.ok
      ⟨some "E1", "30", "90", [⟨7, "a", "x", 100, 3⟩]⟩ =
    (PurchaseResult.response ⟨true, 300, 270⟩,
     ⟨[⟨5, "E1", "30", "90", 300, 270⟩],
      [⟨5, 1, 7, "a", "x", 100, "10"⟩, ⟨5, 2, 7, "a", "x", 100, "10"⟩,
       ⟨5, 3, 7, "a", "x", 100, "10"⟩], 6⟩) := by decide

example :
    search_product [⟨1, "ABC", "n", 5⟩] DBFault.ok (some "ZZZ") =
    SearchOutcome.success none := by decide

theorem log2Aux_spec :
    ∀ fuel n, 1 ≤ n → n ≤ fuel →
      2 ^ log2Aux fuel n ≤ n ∧ n < 2 ^ (log2Aux fuel n + 1) := by
  intro fuel
  induction fuel with
  | zero => intro n h1 h2; omega
  | succ fuel ih =>
    intro n h1 h2
    by_cases hn : n ≤ 1
    · have hone : n = 1 := le_antisymm hn h1
      subst hone
      simp [log2Aux]
    · have h2n : 2 ≤ n := by omega
      have hrec : log2Aux (fuel + 1) n = log2Aux fuel (n / 2) + 1 := by
        simp [log2Aux, hn]
      have h1' : 1 ≤ n / 2 := by omega
      have h2' : n / 2 ≤ fuel := by omega
      obtain ⟨lo, hi⟩ := ih (n / 2) h1' h2'
      rw [hrec, pow_succ, pow_succ] at *
      omega

theorem natLog2_spec (n : Nat) (h : 1 ≤ n) :
    2 ^ natLog2 n ≤ n ∧ n < 2 ^ (natLog2 n + 1) :=
  log2Aux_spec n n h le_rfl

/-- Round-half-even never overshoots the exact quotient by more than one half:
`rheNat a b ≤ a / b + 1 / 2`, stated multiplied out over `ℕ`. -/
theorem rheNat_mul_le (a b : Nat) (hb : 0 < b) : 2 * b * rheNat a b ≤ 2 * a + b := by
  unfold rheNat
  set q := a / b with hq
  set r := a % b with hr
  have h : b * q + r = a := Nat.div_add_mod a b
  have hrb : r < b := Nat.mod_lt a hb
  rw [← h]
  split_ifs <;> nlinarith

/-- The exact quotient never overshoots round-half-even by more than one half:
`a / b ≤ rheNat a b + 1 / 2`, stated multiplied out over `ℕ`. -/
theorem rheNat_mul_ge (a b : Nat) (hb : 0 < b) : 2 * a ≤ 2 * b * rheNat a b + b := by
  unfold rheNat
  set q := a / b with hq
  set r := a % b with hr
  have h : b * q + r = a := Nat.div_add_mod a b
  have hrb : r < b := Nat.mod_lt a hb
  rw [← h]
  split_ifs <;> nlinarith

theorem rheNat_ge_div (a b : Nat) : a / b ≤ rheNat a b := by
  unfold rheNat
  set q := a / b with hq
  set r := a % b with hr
  split_ifs <;> omega

theorem rheNat_le_q (a b : Nat) (hb : 0 < b) :
    (rheNat a b : ℚ) ≤ (a : ℚ) / b + 1 / 2 := by
  have h := rheNat_mul_le a b hb
  have hb' : (0 : ℚ) < (b : ℚ) := by exact_mod_cast hb
  have hcast : (2 : ℚ) * b * rheNat a b ≤ 2 * a + b := by exact_mod_cast h
  rw [div_add_div _ _ (ne_of_gt hb') two_ne_zero, le_div_iff (by positivity)]
  nlinarith [hcast]

theorem ratLog2_le (a b : Nat) (ha : 1 ≤ a) (hb : 1 ≤ b) :
    (2 : ℚ) ^ ratLog2 a b ≤ (a : ℚ) / b := by
  unfold ratLog2
  have hbT : b < 2 ^ (natLog2 b + 1) := (natLog2_spec b hb).2
  have hN1 : 1 ≤ a * 2 ^ (natLog2 b + 1) / b := by
    rw [Nat.le_div_iff_mul_le (by omega)]
    calc 1 * b = b := one_mul b
      _ ≤ 2 ^ (natLog2 b + 1) := le_of_lt hbT
      _ ≤ a * 2 ^ (natLog2 b + 1) := Nat.le_mul_of_pos_left _ ha
  obtain ⟨hlo, _⟩ := natLog2_spec _ hN1
  have hNb : a * 2 ^ (natLog2 b + 1) / b * b ≤ a * 2 ^ (natLog2 b + 1) :=
    Nat.div_mul_le_self _ _
  have hb' : (0 : ℚ) < (b : ℚ) := by exact_mod_cast hb
  have h2T : (0 : ℚ) < (2 : ℚ) ^ (natLog2 b + 1) := by positivity
  rw [zpow_sub₀ two_ne_zero, zpow_natCast, zpow_natCast, div_le_div_iff h2T hb']
  have : (2 : ℚ) ^ natLog2 (a * 2 ^ (natLog2 b + 1) / b) * b ≤
      (a * 2 ^ (natLog2 b + 1) / b : Nat) * b := by
    have : ((2 : ℕ) ^ natLog2 (a * 2 ^ (natLog2 b + 1) / b) : ℚ) ≤
        ((a * 2 ^ (natLog2 b + 1) / b : Nat) : ℚ) := by exact_mod_cast hlo
    have hb0 : (0 : ℚ) ≤ (b : ℚ) := le_of_lt hb'
    calc (2 : ℚ) ^ natLog2 (a * 2 ^ (natLog2 b + 1) / b) * b
        = ((2 : ℕ) ^ natLog2 (a * 2 ^ (natLog2 b + 1) / b) : ℚ) * b := by push_cast; ring
      _ ≤ ((a * 2 ^ (natLog2 b + 1) / b : Nat) : ℚ) * b :=
          mul_le_mul_of_nonneg_right this hb0
  calc (2 : ℚ) ^ natLog2 (a * 2 ^ (natLog2 b + 1) / b) * b
      ≤ ((a * 2 ^ (natLog2 b + 1) / b : Nat) : ℚ) * b := this
    _ ≤ ((a * 2 ^ (natLog2 b + 1) : Nat) : ℚ) := by exact_mod_cast hNb
    _ = (a : ℚ) * 2 ^ (natLog2 b + 1) := by push_cast; ring

theorem cast_shift (a b : Nat) (s : Int) (hb : 0 < b) :
    ((a * 2 ^ s.toNat : ℕ) : ℚ) / ((b * 2 ^ (-s).toNat : ℕ) : ℚ) =
      (a : ℚ) / b * (2 : ℚ) ^ s := by
  have hb' : (0 : ℚ) < (b : ℚ) := by exact_mod_cast hb
  rcases le_or_lt 0 s with hs | hs
  · have h1 : (-s).toNat = 0 := by omega
    have h2 : (2 : ℚ) ^ s = (2 : ℚ) ^ s.toNat := by
      rw [← zpow_natCast, Int.toNat_of_nonneg hs]
    rw [h1, h2]
    push_cast
    ring
  · have h1 : s.toNat = 0 := by omega
    have h2 : (2 : ℚ) ^ s = ((2 : ℚ) ^ (-s).toNat)⁻¹ := by
      rw [← zpow_natCast, Int.toNat_of_nonneg (by omega : (0 : ℤ) ≤ -s), zpow_neg, inv_inv]
    rw [h1, h2]
    push_cast
    ring

theorem pyFloatNat_le (n : Nat) : 2 ^ 53 * pyFloatNat n ≤ 2 ^ 53 * n + n := by
  unfold pyFloatNat
  by_cases he : natLog2 n ≤ 52
  · simp [he]
  · simp only [he, if_false]
    have hn1 : 1 ≤ n := by
      by_contra h
      have : n = 0 := by omega
      subst this
      exact he (by norm_num [natLog2, log2Aux])
    obtain ⟨hlo, _⟩ := natLog2_spec n hn1
    have hsh : 0 < 2 ^ (natLog2 n - 52) := Nat.pos_pow_of_pos _ (by norm_num)
    have h1 := rheNat_mul_le n (2 ^ (natLog2 n - 52)) hsh
    have h2 : 2 ^ 52 * (2 * 2 ^ (natLog2 n - 52) * rheNat n (2 ^ (natLog2 n - 52))) ≤
        2 ^ 52 * (2 * n + 2 ^ (natLog2 n - 52)) := Nat.mul_le_mul_left _ h1
    have hsplit : 2 ^ 52 * 2 ^ (natLog2 n - 52) = 2 ^ natLog2 n := by
      rw [← pow_add]
      congr 1
      omega
    calc 2 ^ 53 * (rheNat n (2 ^ (natLog2 n - 52)) * 2 ^ (natLog2 n - 52))
        = 2 ^ 52 * (2 * 2 ^ (natLog2 n - 52) * rheNat n (2 ^ (natLog2 n - 52))) := by ring
      _ ≤ 2 ^ 52 * (2 * n + 2 ^ (natLog2 n - 52)) := h2
      _ = 2 ^ 53 * n + 2 ^ 52 * 2 ^ (natLog2 n - 52) := by ring
      _ = 2 ^ 53 * n + 2 ^ natLog2 n := by rw [hsplit]
      _ ≤ 2 ^ 53 * n + n := by omega

/-- The natural floor `m * 2 ^ (-s).toNat / 2 ^ s.toNat` is bounded by the rational value
`m * 2 ^ (-s)` it truncates. -/
theorem floorScaled (m : Nat) (s : Int) :
    ((m * 2 ^ (-s).toNat / 2 ^ s.toNat : ℕ) : ℚ) ≤ (m : ℚ) * (2 : ℚ) ^ (-s) := by
  calc ((m * 2 ^ (-s).toNat / 2 ^ s.toNat : ℕ) : ℚ)
      ≤ ((m * 2 ^ (-s).toNat : ℕ) : ℚ) / ((2 ^ s.toNat : ℕ) : ℚ) := Nat.cast_div_le
    _ = (m : ℚ) * (2 : ℚ) ^ (-s) := by
        have h := cast_shift m 1 (-s) one_pos
        rw [neg_neg] at h
        simpa using h

/-- Correctly rounded division inflates the exact quotient `a / c11` by at most a factor
`1 + 2 ^ (-53)`. -/
theorem quotient_round_le (a : Nat) (ha : 1 ≤ a) :
    (rheNat (a * 2 ^ ((52 : Int) - ratLog2 a c11).toNat)
        (c11 * 2 ^ (-((52 : Int) - ratLog2 a c11)).toNat) : ℚ) *
      (2 : ℚ) ^ (-((52 : Int) - ratLog2 a c11)) ≤
    (a : ℚ) / c11 * (1 + (2 : ℚ) ^ (-53 : ℤ)) := by
  set e2 := ratLog2 a c11 with he2
  set s : Int := 52 - e2 with hs
  have hcpos : 0 < c11 := by norm_num [c11]
  have hB : 0 < c11 * 2 ^ (-s).toNat := Nat.mul_pos hcpos (Nat.pos_pow_of_pos _ (by norm_num))
  have hm := rheNat_le_q (a * 2 ^ s.toNat) (c11 * 2 ^ (-s).toNat) hB
  have hAB := cast_shift a c11 s hcpos
  have hlog : (2 : ℚ) ^ e2 ≤ (a : ℚ) / c11 := ratLog2_le a c11 ha (by norm_num [c11])
  have h2s : (0 : ℚ) < (2 : ℚ) ^ (-s) := by positivity
  have step1 : (rheNat (a * 2 ^ s.toNat) (c11 * 2 ^ (-s).toNat) : ℚ) * (2 : ℚ) ^ (-s) ≤
      ((a : ℚ) / c11 * (2 : ℚ) ^ s + 1 / 2) * (2 : ℚ) ^ (-s) := by
    apply mul_le_mul_of_nonneg_right _ (le_of_lt h2s)
    rw [← hAB]
    exact hm
  have step2 : ((a : ℚ) / c11 * (2 : ℚ) ^ s + 1 / 2) * (2 : ℚ) ^ (-s) =
      (a : ℚ) / c11 + 1 / 2 * (2 : ℚ) ^ (-s) := by
    rw [add_mul, mul_assoc, ← zpow_add₀ (two_ne_zero (α := ℚ)), add_neg_cancel,
      zpow_zero, mul_one]
  have step3 : (1 : ℚ) / 2 * (2 : ℚ) ^ (-s) = (2 : ℚ) ^ e2 * (2 : ℚ) ^ (-53 : ℤ) := by
    rw [hs, neg_sub, ← zpow_add₀ (two_ne_zero (α := ℚ)),
      show (1 : ℚ) / 2 = (2 : ℚ) ^ (-1 : ℤ) by norm_num,
      ← zpow_add₀ (two_ne_zero (α := ℚ))]
    congr 1
    ring
  have step4 : (2 : ℚ) ^ e2 * (2 : ℚ) ^ (-53 : ℤ) ≤ (a : ℚ) / c11 * (2 : ℚ) ^ (-53 : ℤ) :=
    mul_le_mul_of_nonneg_right hlog (by positivity)
  calc (rheNat (a * 2 ^ s.toNat) (c11 * 2 ^ (-s).toNat) : ℚ) * (2 : ℚ) ^ (-s)
      ≤ (a : ℚ) / c11 + 1 / 2 * (2 : ℚ) ^ (-s) := by rw [← step2]; exact step1
    _ ≤ (a : ℚ) / c11 + (a : ℚ) / c11 * (2 : ℚ) ^ (-53 : ℤ) := by
        rw [step3]; linarith [step4]
    _ = (a : ℚ) / c11 * (1 + (2 : ℚ) ^ (-53 : ℤ)) := by ring

theorem pyFloatNat_pos (n : Nat) (h : 1 ≤ n) : 1 ≤ pyFloatNat n := by
  unfold pyFloatNat
  by_cases he : natLog2 n ≤ 52
  · simpa [he] using h
  · simp only [he, if_false]
    obtain ⟨hlo, _⟩ := natLog2_spec n h
    have hdiv : 1 ≤ n / 2 ^ (natLog2 n - 52) := by
      rw [Nat.le_div_iff_mul_le (Nat.pos_pow_of_pos _ (by norm_num))]
      rw [one_mul]
      calc 2 ^ (natLog2 n - 52) ≤ 2 ^ natLog2 n :=
            Nat.pow_le_pow_right (by norm_num) (by omega)
        _ ≤ n := hlo
    have := rheNat_ge_div n (2 ^ (natLog2 n - 52))
    have hsh : 1 ≤ 2 ^ (natLog2 n - 52) := Nat.one_le_two_pow
    calc 1 = 1 * 1 := by ring
      _ ≤ rheNat n (2 ^ (natLog2 n - 52)) * 2 ^ (natLog2 n - 52) :=
          Nat.mul_le_mul (by omega) hsh

/-- The computed per-unit tax-excluded price is strictly below the original price: the
binary64 value of `1.1` exceeds `1.1`, so dividing by it and rounding still loses more
than a factor `10 / 11`, and the floor only shrinks further. -/
theorem exTaxUnitNat_lt (n : Nat) (hn : 1 ≤ n) : exTaxUnitNat n < n := by
  have key : (exTaxUnitNat n : ℚ) < (n : ℚ) := by
    have hF1 : 1 ≤ pyFloatNat n := pyFloatNat_pos n hn
    have hFle := pyFloatNat_le n
    have ha1 : 1 ≤ pyFloatNat n * 2 ^ 51 :=
      Nat.mul_le_mul hF1 (Nat.one_le_two_pow)
    have hq := quotient_round_le (pyFloatNat n * 2 ^ 51) ha1
    have hfl := floorScaled (divCoreM n) (divCoreS n)
    have hrw : exTaxUnitNat n =
        divCoreM n * 2 ^ (-divCoreS n).toNat / 2 ^ (divCoreS n).toNat := by
      rw [exTaxUnitNat, if_neg (by omega : ¬ n = 0)]
    have hmid : (divCoreM n : ℚ) * (2 : ℚ) ^ (-divCoreS n) ≤
        ((pyFloatNat n * 2 ^ 51 : ℕ) : ℚ) / c11 * (1 + (2 : ℚ) ^ (-53 : ℤ)) := by
      simp only [divCoreM, divCoreS]
      exact hq
    have h1 : (exTaxUnitNat n : ℚ) ≤
        ((pyFloatNat n * 2 ^ 51 : ℕ) : ℚ) / c11 * (1 + (2 : ℚ) ^ (-53 : ℤ)) := by
      rw [hrw]
      exact le_trans hfl hmid
    have hc : (c11 : ℚ) = 2476979795053773 := by norm_num [c11]
    have hP : (2 : ℚ) ^ (-53 : ℤ) = 1 / 9007199254740992 := by norm_num
    rw [hc, hP] at h1
    push_cast at h1
    have h2 : (pyFloatNat n : ℚ) * 9007199254740992 ≤
        (n : ℚ) * 9007199254740992 + n := by
      have : ((2 ^ 53 * pyFloatNat n : ℕ) : ℚ) ≤ ((2 ^ 53 * n + n : ℕ) : ℚ) := by
        exact_mod_cast hFle
      push_cast at this
      linarith
    have hn' : (1 : ℚ) ≤ (n : ℚ) := by exact_mod_cast hn
    linarith
  exact_mod_cast key

theorem exTaxUnit_nonneg (p : Int) (hp : 0 ≤ p) : 0 ≤ exTaxUnit p := by
  rw [exTaxUnit, if_pos hp]
  exact Int.natCast_nonneg _

theorem exTaxUnit_le (p : Int) (hp : 0 ≤ p) : exTaxUnit p ≤ p := by
  rw [exTaxUnit, if_pos hp]
  rcases eq_or_lt_of_le hp with h | h
  · rw [← h]
    simp [exTaxUnitNat]
  · have h1 : 1 ≤ p.toNat := by omega
    have := exTaxUnitNat_lt p.toNat h1
    omega

/-- Detail ids emitted for the items after an arbitrary starting value of the running
`dtl_id` counter: the contiguous range starting there, of length `unitCount`. -/
theorem detailRowsFrom_ids (t s : Nat) (items : List PurchaseItem) :
    (detailRowsFrom t s items).map (fun r => r.dtl_id) =
      List.range' s (unitCount items) := by
  induction items generalizing s with
  | nil => simp [detailRowsFrom, unitCount]
  | cons i rest ih =>
      have h1 : (itemRows t s i).map (fun r => r.dtl_id) =
          List.range' s i.quantity.toNat := by
        simp only [itemRows, List.map_map]
        have : ((fun r : DtlRow => r.dtl_id) ∘ fun j =>
            (⟨t, s + j, i.prd_id, i.prd_code, i.prd_name, i.prd_price, "10"⟩ : DtlRow)) =
            fun j => s + j := rfl
        rw [this, ← List.range'_eq_map_range]
      have h2 := List.range'_append s i.quantity.toNat (unitCount rest) 1
      simp only [one_mul] at h2
      calc (detailRowsFrom t s (i :: rest)).map (fun r => r.dtl_id)
          = (itemRows t s i).map (fun r => r.dtl_id) ++
            (detailRowsFrom t (s + i.quantity.toNat) rest).map (fun r => r.dtl_id) := by
            simp [detailRowsFrom]
        _ = List.range' s i.quantity.toNat ++
            List.range' (s + i.quantity.toNat) (unitCount rest) := by rw [h1, ih]
        _ = List.range' s (unitCount rest + i.quantity.toNat) := h2
        _ = List.range' s (unitCount (i :: rest)) := by
            simp [unitCount, Nat.add_comm]

/-- Every emitted detail row carries the generated transaction id and the fixed tax
code `"10"`. -/
theorem detailRowsFrom_fields (t s : Nat) (items : List PurchaseItem) :
    ∀ r ∈ detailRowsFrom t s items, r.trd_id = t ∧ r.tax_cd = "10" := by
  induction items generalizing s with
  | nil => simp [detailRowsFrom]
  | cons i rest ih =>
      intro r hr
      simp only [detailRowsFrom, List.mem_append] at hr
      rcases hr with hr | hr
      · simp only [itemRows, List.mem_map, List.mem_range] at hr
        obtain ⟨j, _, rfl⟩ := hr
        exact ⟨rfl, rfl⟩
      · exact ih _ r hr

/-- The product snapshot carried by the emitted detail rows, in order: each submitted
line expanded into `quantity` copies of its snapshot, lines in submission order. -/
theorem detailRowsFrom_content (t s : Nat) (items : List PurchaseItem) :
    (detailRowsFrom t s items).map (fun r => (r.prd_id, r.prd_code, r.prd_name, r.prd_price)) =
      items.flatMap (fun i =>
        List.replicate i.quantity.toNat (i.prd_id, i.prd_code, i.prd_name, i.prd_price)) := by
  induction items generalizing s with
  | nil => simp [detailRowsFrom]
  | cons i rest ih =>
      simp only [detailRowsFrom, List.map_append, List.flatMap_cons, ih]
      congr 1
      simp only [itemRows, List.map_map]
      have : ((fun r : DtlRow => (r.prd_id, r.prd_code, r.prd_name, r.prd_price)) ∘ fun j =>
          (⟨t, s + j, i.prd_id, i.prd_code, i.prd_name, i.prd_price, "10"⟩ : DtlRow)) =
          fun _ => (i.prd_id, i.prd_code, i.prd_name, i.prd_price) := rfl
      rw [this]
      rw [List.map_const']
      simp

/-- With nonnegative quantities, the number of emitted detail rows is the sum of the
submitted quantities. -/
theorem unitCount_eq_sum (items : List PurchaseItem)
    (hq : ∀ i ∈ items, 0 ≤ i.quantity) :
    (unitCount items : Int) = (items.map fun i => i.quantity).sum := by
  induction items with
  | nil => simp [unitCount]
  | cons i rest ih =>
      have hi : 0 ≤ i.quantity := hq i (List.mem_cons_self i rest)
      have hrest : ∀ j ∈ rest, 0 ≤ j.quantity := fun j hj => hq j (List.mem_cons_of_mem i hj)
      simp only [unitCount, List.map_cons, List.sum_cons] at *
      rw [Nat.cast_add, Int.toNat_of_nonneg hi, ih hrest]

/-- Splitting the detail-row loop across a list append shifts the running counter by the
number of rows emitted for the first part. -/
theorem detailRowsFrom_append (t s : Nat) (l1 l2 : List PurchaseItem) :
    detailRowsFrom t s (l1 ++ l2) =
      detailRowsFrom t s l1 ++ detailRowsFrom t (s + unitCount l1) l2 := by
  induction l1 generalizing s with
  | nil => simp [detailRowsFrom, unitCount]
  | cons i rest ih =>
      simp [detailRowsFrom, ih, unitCount, List.append_assoc, Nat.add_assoc]

/-- Lines of zero quantity emit no detail rows at all. -/
theorem detailRowsFrom_all_zero (t s : Nat) (l : List PurchaseItem)
    (h : ∀ i ∈ l, i.quantity = 0) : detailRowsFrom t s l = [] := by
  induction l generalizing s with
  | nil => rfl
  | cons i rest ih =>
      have hi := h i (List.mem_cons_self i rest)
      have hrest := fun j hj => h j (List.mem_cons_of_mem i hj)
      simp [detailRowsFrom, itemRows, hi]
      exact ih s hrest

/-- With a non-empty item list and no storage fault, `purchase` runs its success path. -/
theorem purchase_ok_eq (db : DB) (req : PurchaseRequest) (hne : req.items ≠ []) :
    purchase db DBFault.ok req = purchaseCommit db req := by
  have h : ¬ req.items.isEmpty = true := by simp [List.isEmpty_iff, hne]
  rw [purchase, if_neg h]

/-- C1 (counterexample to the claim as stated): on the single line with price 110 and
quantity 1 the endpoint's tax-excluded total is 99, whereas the claimed formula
`Σ ⌊unit_price / 1.1⌋ × quantity` with the exact rational floor gives 100. -/
theorem C1_counterexample :
    (purchase ⟨[], [], 1⟩ DBFault.ok
        ⟨some "", "30", "90", [⟨7, "4901", "tea", 110, 1⟩]⟩).1 =
      PurchaseResult.response ⟨true, 110, 99⟩ ∧
    ([(⟨7, "4901", "tea", 110, 1⟩ : PurchaseItem)].map fun i =>
        specExTaxUnit i.prd_price * i.quantity).sum = 100 ∧
    (99 : Int) ≠ 100 := by decide

/-- C1 (amended): for every non-empty line list whose prices are in binary64 range, the
purchase response carries `total = Σ unit_price × quantity` and
`total_ex_tax = Σ floorF(unit_price /F 1.1) × quantity`, where `/F` is IEEE-754 binary64
division by the double nearest 1.1 and the floor is applied to the per-unit price before
multiplying by the quantity. -/
theorem C1_purchase_totals (db : DB) (req : PurchaseRequest)
    (hne : req.items ≠ []) (hrange : pricesRepresentable req.items) :
    (purchase db DBFault.ok req).1 =
      PurchaseResult.response
        ⟨true, (req.items.map fun i => i.prd_price * i.quantity).sum,
          (req.items.map fun i => exTaxUnit i.prd_price * i.quantity).sum⟩ := by
  rw [purchase_ok_eq db req hne]
  rfl

theorem C1_purchase_totals_witness :
    (purchase ⟨[], [], 1⟩ DBFault.ok
        ⟨some "", "30", "90", [⟨7, "4901", "tea", 110, 1⟩]⟩).1 =
      PurchaseResult.response
        ⟨true,
          ([(⟨7, "4901", "tea", 110, 1⟩ : PurchaseItem)].map fun i =>
            i.prd_price * i.quantity).sum,
          ([(⟨7, "4901", "tea", 110, 1⟩ : PurchaseItem)].map fun i =>
            exTaxUnit i.prd_price * i.quantity).sum⟩ :=
  C1_purchase_totals ⟨[], [], 1⟩ _ (by decide) (by decide)

/-- C2: a `pymysql.Error` on any statement of the unit of work — header insert, any
detail insert, or the commit — leaves zero header rows and zero detail rows of the
transaction visible (both tables exactly as they were) and surfaces as an HTTP 500
error. -/
theorem C2_rollback_on_failure (db : DB) (req : PurchaseRequest) (k : Nat)
    (hne : req.items ≠ []) (hk : k ≤ unitCount req.items + 1)
    (hrange : pricesRepresentable req.items) :
    (purchase db (DBFault.failOn k) req).1 = PurchaseResult.serverError 500 ∧
      (purchase db (DBFault.failOn k) req).2.txns = db.txns ∧
      (purchase db (DBFault.failOn k) req).2.dtls = db.dtls := by
  have h : ¬ req.items.isEmpty = true := by simp [List.isEmpty_iff, hne]
  have hres : purchase db (DBFault.failOn k) req =
      (PurchaseResult.serverError 500, ⟨db.txns, db.dtls, db.nextTxnId + 1⟩) := by
    rw [purchase, if_neg h]
    exact if_pos hk
  rw [hres]
  exact ⟨rfl, rfl, rfl⟩

/-- C2 witness: a fault injected on the second detail insert (statement 2) of a
two-line purchase rolls everything back. -/
theorem C2_rollback_on_failure_witness :
    (purchase ⟨[], [], 1⟩ (DBFault.failOn 2)
        ⟨some "E", "30", "90", [⟨1, "a", "x", 100, 1⟩, ⟨2, "b", "y", 200, 1⟩]⟩).1 =
        PurchaseResult.serverError 500 ∧
      (purchase ⟨[], [], 1⟩ (DBFault.failOn 2)
          ⟨some "E", "30", "90", [⟨1, "a", "x", 100, 1⟩, ⟨2, "b", "y", 200, 1⟩]⟩).2.txns =
        [] ∧
      (purchase ⟨[], [], 1⟩ (DBFault.failOn 2)
          ⟨some "E", "30", "90", [⟨1, "a", "x", 100, 1⟩, ⟨2, "b", "y", 200, 1⟩]⟩).2.dtls =
        [] :=
  C2_rollback_on_failure ⟨[], [], 1⟩ _ 2 (by decide) (by decide) (by decide)

/-- C3: on the success path the new detail rows carry ids exactly `1 .. N` in submission
order (`N = Σ quantity` under the code's quantity-expansion policy), every new row
carries the storage-generated transaction id of the new header, and the snapshots follow
the submitted lines in order, expanded per unit of quantity. -/
theorem C3_detail_rows (db : DB) (req : PurchaseRequest)
    (hne : req.items ≠ []) (hqty : ∀ i ∈ req.items, 0 ≤ i.quantity)
    (hrange : pricesRepresentable req.items) :
    (((purchase db DBFault.ok req).2.dtls).drop db.dtls.length).map (fun r => r.dtl_id) =
        List.range' 1 (unitCount req.items) ∧
      (unitCount req.items : Int) = (req.items.map fun i => i.quantity).sum ∧
      (∀ r ∈ ((purchase db DBFault.ok req).2.dtls).drop db.dtls.length,
        r.trd_id = db.nextTxnId) ∧
      ((purchase db DBFault.ok req).2.txns).map (fun r => r.trd_id) =
        db.txns.map (fun r => r.trd_id) ++ [db.nextTxnId] ∧
      (((purchase db DBFault.ok req).2.dtls).drop db.dtls.length).map
          (fun r => (r.prd_id, r.prd_code, r.prd_name, r.prd_price)) =
        req.items.flatMap (fun i =>
          List.replicate i.quantity.toNat (i.prd_id, i.prd_code, i.prd_name, i.prd_price)) := by
  rw [purchase_ok_eq db req hne]
  simp only [purchaseCommit]
  rw [List.drop_left]
  refine ⟨detailRowsFrom_ids _ 1 _,
    unitCount_eq_sum req.items hqty,
    fun r hr => (detailRowsFrom_fields _ 1 _ r hr).1, ?_,
    detailRowsFrom_content _ 1 _⟩
  simp

theorem C3_detail_rows_witness :
    (((purchase ⟨[], [], 1⟩ DBFault.ok
          ⟨some "E", "30", "90",
            [⟨1, "a", "x", 10, 1⟩, ⟨2, "b", "y", 20, 1⟩, ⟨3, "c", "z", 30, 1⟩]⟩).2.dtls).drop
        0).map (fun r => r.dtl_id) =
      List.range' 1
        (unitCount [⟨1, "a", "x", 10, 1⟩, ⟨2, "b", "y", 20, 1⟩, ⟨3, "c", "z", 30, 1⟩]) :=
  (C3_detail_rows ⟨[], [], 1⟩ _ (by decide) (by decide) (by decide)).1

/-- C4: with non-negative prices and positive quantities, the computed totals satisfy
`total ≥ total_ex_tax ≥ 0`. -/
theorem C4_totals_invariant (items : List PurchaseItem)
    (hprice : ∀ i ∈ items, 0 ≤ i.prd_price)
    (hqty : ∀ i ∈ items, 0 < i.quantity)
    (hrange : pricesRepresentable items) :
    0 ≤ totalAmountExTax items ∧ totalAmountExTax items ≤ totalAmount items := by
  constructor
  · apply List.sum_nonneg
    intro x hx
    simp only [List.mem_map] at hx
    obtain ⟨i, hi, rfl⟩ := hx
    exact mul_nonneg (exTaxUnit_nonneg _ (hprice i hi)) (le_of_lt (hqty i hi))
  · apply List.sum_le_sum
    intro i hi
    exact mul_le_mul_of_nonneg_right (exTaxUnit_le _ (hprice i hi)) (le_of_lt (hqty i hi))

theorem C4_totals_invariant_witness :
    0 ≤ totalAmountExTax [⟨7, "4901", "tea", 110, 2⟩] ∧
      totalAmountExTax [⟨7, "4901", "tea", 110, 2⟩] ≤
        totalAmount [⟨7, "4901", "tea", 110, 2⟩] :=
  C4_totals_invariant _ (by decide) (by decide) (by decide)

/-- C5: the persisted header carries the sentinel `"9999999999"` exactly when `emp_cd`
is null or empty, and the submitted code unchanged otherwise. -/
theorem C5_employee_code (db : DB) (req : PurchaseRequest)
    (hne : req.items ≠ []) (hrange : pricesRepresentable req.items) :
    ∃ h : TxnRow, (purchase db DBFault.ok req).2.txns = db.txns ++ [h] ∧
      ((req.emp_cd = none ∨ req.emp_cd = some "") → h.emp_cd = "9999999999") ∧
      (∀ s, req.emp_cd = some s → s ≠ "" → h.emp_cd = s) := by
  rw [purchase_ok_eq db req hne]
  refine ⟨_, rfl, ?_, ?_⟩
  · intro hcase
    rcases hcase with h0 | h0 <;> simp [effectiveEmpCd, h0]
  · intro s hs hsne
    simp [effectiveEmpCd, hs, hsne]

theorem C5_employee_code_witness :
    ∃ h : TxnRow,
      (purchase ⟨[], [], 1⟩ DBFault.ok
          ⟨some "", "30", "90", [⟨7, "4901", "tea", 110, 1⟩]⟩).2.txns = [] ++ [h] ∧
        (((some "" : Option String) = none ∨ (some "" : Option String) = some "") →
          h.emp_cd = "9999999999") ∧
        (∀ s, (some "" : Option String) = some s → s ≠ "" → h.emp_cd = s) :=
  C5_employee_code ⟨[], [], 1⟩ _ (by decide) (by decide)

/-- C6: evaluation of the pricing code at the failing input `{price 110, quantity 1}`:
the code's binary64 floor of `110 / 1.1` is 99, while the exact rational floor demanded
by the claim is 100. -/
theorem C6_pricing_at_110 :
    totalAmount [⟨7, "4901", "tea", 110, 1⟩] = 110 ∧
    totalAmountExTax [⟨7, "4901", "tea", 110, 1⟩] = 99 ∧
    specExTaxUnit 110 = 100 ∧ (99 : Int) ≠ 100 := by decide

/-- C7: an empty items list is rejected with HTTP 400 and the stored state is untouched,
under every storage-fault scenario whatsoever — in particular the outcome is the same
even when no connection can be established, which shows no connection is attempted. -/
theorem C7_empty_items_rejected (db : DB) (fault : DBFault) (req : PurchaseRequest)
    (h : req.items = []) :
    purchase db fault req = (PurchaseResult.clientError 400, db) := by
  rw [purchase.eq_def, if_pos (by simp [h] : req.items.isEmpty = true)]

theorem C7_empty_items_rejected_witness :
    purchase ⟨[], [], 1⟩ DBFault.noConn ⟨some "E", "30", "90", []⟩ =
      (PurchaseResult.clientError 400, ⟨[], [], 1⟩) :=
  C7_empty_items_rejected ⟨[], [], 1⟩ DBFault.noConn _ rfl

/-- C8: a non-empty code that matches no product yields a success response with a null
product; a missing or empty code yields HTTP 400 (under every fault scenario, since the
rejection happens before any storage access). -/
theorem C8_lookup_miss_null :
    (∀ (catalog : List Product) (c : String), c ≠ "" →
        (∀ p ∈ catalog, p.prd_code ≠ c) →
        search_product catalog DBFault.ok (some c) = SearchOutcome.success none) ∧
    (∀ (catalog : List Product) (fault : DBFault),
        search_product catalog fault none = SearchOutcome.clientError 400 ∧
        search_product catalog fault (some "") = SearchOutcome.clientError 400) := by
  constructor
  · intro catalog c hc hmiss
    have hnone : lookupProduct catalog c = none := by
      rw [lookupProduct, List.head?_eq_none_iff, List.filter_eq_nil_iff]
      intro a ha
      simp [hmiss a ha]
    simp [search_product, hc, hnone]
  · intro catalog fault
    exact ⟨rfl, by simp [search_product]⟩

theorem C8_lookup_miss_null_witness :
    search_product [⟨1, "ABC", "n", 5⟩] DBFault.ok (some "ZZZ") =
        SearchOutcome.success none ∧
      search_product [] DBFault.noConn none = SearchOutcome.clientError 400 :=
  ⟨C8_lookup_miss_null.1 [⟨1, "ABC", "n", 5⟩] "ZZZ" (by decide) (by decide),
   (C8_lookup_miss_null.2 [] DBFault.noConn).1⟩

/-- C9: a zero-quantity line is accepted, contributes nothing to either total and emits
no detail rows wherever it sits in the list; a purchase whose every line has quantity
zero still succeeds, persisting one header and no detail rows. -/
theorem C9_zero_quantity :
    (∀ (t s : Nat) (pre post : List PurchaseItem) (i : PurchaseItem), i.quantity = 0 →
        totalAmount (pre ++ i :: post) = totalAmount (pre ++ post) ∧
        totalAmountExTax (pre ++ i :: post) = totalAmountExTax (pre ++ post) ∧
        detailRowsFrom t s (pre ++ i :: post) = detailRowsFrom t s (pre ++ post)) ∧
    (∀ (db : DB) (req : PurchaseRequest), req.items ≠ [] →
        (∀ i ∈ req.items, i.quantity = 0) → pricesRepresentable req.items →
        (purchase db DBFault.ok req).1 =
            PurchaseResult.response
              ⟨true, totalAmount req.items, totalAmountExTax req.items⟩ ∧
          (purchase db DBFault.ok req).2.txns.length = db.txns.length + 1 ∧
          (purchase db DBFault.ok req).2.dtls = db.dtls) := by
  constructor
  · intro t s pre post i hq
    refine ⟨?_, ?_, ?_⟩
    · simp [totalAmount, hq]
    · simp [totalAmountExTax, hq]
    · rw [detailRowsFrom_append, detailRowsFrom_append]
      simp [detailRowsFrom, itemRows, hq]
  · intro db req hne hall hrange
    rw [purchase_ok_eq db req hne]
    refine ⟨rfl, ?_, ?_⟩
    · simp [purchaseCommit]
    · simp [purchaseCommit, detailRows, detailRowsFrom_all_zero db.nextTxnId 1 req.items hall]

theorem C9_zero_quantity_witness :
    totalAmount ([] ++ (⟨1, "a", "x", 110, 0⟩ : PurchaseItem) :: []) =
        totalAmount ([] ++ ([] : List PurchaseItem)) ∧
      (purchase ⟨[], [], 1⟩ DBFault.ok
          ⟨some "", "30", "90", [⟨1, "a", "x", 110, 0⟩]⟩).2.dtls = [] :=
  ⟨(C9_zero_quantity.1 1 1 [] [] _ rfl).1,
   ((C9_zero_quantity.2 ⟨[], [], 1⟩ _ (by decide) (by decide) (by decide)).2).2⟩

/-- C10: on a successful call the response's two totals coincide with the `TOTAL_AMT`
and `TTL_AMT_EX_TAX` columns of the header row persisted by that same call. -/
theorem C10_response_matches_header (db : DB) (req : PurchaseRequest)
    (hne : req.items ≠ []) (hrange : pricesRepresentable req.items) :
    ∃ h : TxnRow, (purchase db DBFault.ok req).2.txns = db.txns ++ [h] ∧
      (purchase db DBFault.ok req).1 =
        PurchaseResult.response ⟨true, h.total_amt, h.ttl_amt_ex_tax⟩ := by
  rw [purchase_ok_eq db req hne]
  exact ⟨_, rfl, rfl⟩

theorem C10_response_matches_header_witness :
    ∃ h : TxnRow,
      (purchase ⟨[], [], 1⟩ DBFault.ok
          ⟨some "E", "30", "90", [⟨7, "4901", "tea", 110, 3⟩]⟩).2.txns = [] ++ [h] ∧
        (purchase ⟨[], [], 1⟩ DBFault.ok
            ⟨some "E", "30", "90", [⟨7, "4901", "tea", 110, 3⟩]⟩).1 =
          PurchaseResult.response ⟨true, h.total_amt, h.ttl_amt_ex_tax⟩ :=
  C10_response_matches_header ⟨[], [], 1⟩ _ (by decide) (by decide)
